import Mathlib

set_option autoImplicit false
set_option maxRecDepth 100000

/-!
Verification development for the `ralph` task-orchestration engine.

The definitions below are a shallow embedding of the parts of
`src/task/RalphLoop.mjs`, `src/utils/UserConfig.mjs` and
`src/tools/ClaudeTool.mjs` that the verified properties are about:
the task-graph resolver, the run/resume state machine, the agent
invocation result handling, the raw-output JSON extraction and the
set-configuration validator.  JavaScript values that flow through
`JSON.parse` / `JSON.stringify` are modelled by the `Json` inductive;
JavaScript truthiness is modelled explicitly.  Terminal rendering
(`Print.*`), filesystem access and process spawning are effects that
carry no decision-relevant state and are omitted; where a function
reads a file, the parsed content is taken as an argument.
-/

/-! ## Exit codes (`EXIT_CODES` in RalphLoop.mjs) -/

def EXIT_SUCCESS : Nat := 0

def EXIT_INIT_FAILED : Nat := 1

def EXIT_SCHEMA_INVALID : Nat := 2

def EXIT_TASK_FAILED : Nat := 3

def EXIT_TASK_BLOCKED : Nat := 4

def EXIT_NETWORK_ERROR : Nat := 5

def EXIT_CLAUDE_ERROR : Nat := 6

def EXIT_FILE_NOT_FOUND : Nat := 7

def EXIT_INVALID_ARGS : Nat := 8

def EXIT_UNKNOWN : Nat := 99

/-! ## Subtasks and the task-graph resolver (`RalphLoop.findNextTask`) -/

/-- A user story (subtask) as read from the PRD document.  Only the fields
the orchestration control flow inspects are modelled: `id`, `status`,
`dependencies` and `notes` (the latter feeds `lastError.message`). -/
structure Subtask where
  id : String
  status : String
  dependencies : List String
  notes : Option String := none
deriving Repr, DecidableEq

/-- The predicate of the `.find` callback inside `RalphLoop.findNextTask`:
skip stories whose id is already completed, skip stories with status
`completed` or `failed`, and require every dependency id to be completed.
`completedSet.has x` on a `Set` built from `completedIds` is list
membership. -/
def storyEligible (completedIds : List String) (story : Subtask) : Bool :=
  if completedIds.contains story.id then false
  else if story.status == "completed" || story.status == "failed" then false
  else story.dependencies.all (fun depId => completedIds.contains depId)

/-- `RalphLoop.findNextTask`: the first story satisfying `storyEligible`,
`none` when no story qualifies (`.find(...) || null`). -/
def findNextTask (userStories : List Subtask) (completedIds : List String) :
    Option Subtask :=
  userStories.find? (storyEligible completedIds)

/-- Sample subtask `A` with no dependencies. -/
def taskA : Subtask := { id := "A", status := "pending", dependencies := [] }

/-- Sample subtask `B` depending on `A`. -/
def taskB : Subtask := { id := "B", status := "pending", dependencies := ["A"] }

/-- Sample subtask `C` depending on `A`, declared after `B`. -/
def taskC : Subtask := { id := "C", status := "pending", dependencies := ["A"] }

/-! ## JSON values

JavaScript values produced by `JSON.parse` are modelled by `Json`.
Numeric literals are kept verbatim (`Json.num raw`): no verified property
performs arithmetic on JSON numbers, only truthiness tests and
re-serialization of integer literals, for which the literal text is the
value.  Objects keep their properties in insertion order and are
duplicate-free by construction (`insertProp` overwrites in place, as
JavaScript property assignment does during parsing). -/

inductive Json where
  | null : Json
  | bool (b : Bool) : Json
  | num (raw : String) : Json
  | str (s : String) : Json
  | arr (items : List Json) : Json
  | obj (props : List (String × Json)) : Json

/-- Property insertion with JavaScript overwrite-in-place semantics. -/
def insertProp (props : List (String × Json)) (key : String) (v : Json) :
    List (String × Json) :=
  match props with
  | [] => [(key, v)]
  | (k, w) :: rest =>
    if k == key then (k, v) :: rest else (k, w) :: insertProp rest key v

/-- JavaScript property access `j.key`: `none` models `undefined`
(missing key, or access on a non-object value). -/
def Json.getProp (j : Json) (key : String) : Option Json :=
  match j with
  | .obj props => props.lookup key
  | _ => none

/-- Whether a JSON numeric literal denotes zero: every digit of its
mantissa (the part before any exponent marker) is `0`. -/
def numIsZero (raw : String) : Bool :=
  (raw.toList.takeWhile (fun c => c != 'e' && c != 'E')).all
    (fun c => !c.isDigit || c == '0')

/-- JavaScript truthiness of a JSON value. -/
def jsTruthyV : Json → Bool
  | .null => false
  | .bool b => b
  | .num raw => !numIsZero raw
  | .str s => s != ""
  | .arr _ => true
  | .obj _ => true

/-- JavaScript truthiness of a possibly-`undefined` value. -/
def jsTruthy : Option Json → Bool
  | some v => jsTruthyV v
  | none => false

/-- JavaScript `typeof` on a JSON value (`typeof null` is `"object"`,
as is `typeof` of an array). -/
def jsTypeof : Json → String
  | .null => "object"
  | .bool _ => "boolean"
  | .num _ => "number"
  | .str _ => "string"
  | .arr _ => "object"
  | .obj _ => "object"

/-! ## A JSON parser modelling `JSON.parse`

The parser consumes an explicit character list and uses a fuel argument
for termination; `jsonParse` supplies ample fuel, so fuel exhaustion is
unreachable for any input.  `JSON.parse` requires the whole string to be
one JSON value surrounded only by JSON whitespace, and rejects trailing
garbage — exactly mirrored here. -/

/-- JSON whitespace (the only whitespace `JSON.parse` accepts). -/
def jsonWs (c : Char) : Bool :=
  c == ' ' || c == '\t' || c == '\n' || c == '\r'

/-- Drop leading JSON whitespace. -/
def skipWs : List Char → List Char
  | [] => []
  | c :: cs => if jsonWs c then skipWs cs else c :: cs

/-- Hexadecimal digit value. -/
def hexVal (c : Char) : Option Nat :=
  if '0' ≤ c ∧ c ≤ '9' then some (c.toNat - '0'.toNat)
  else if 'a' ≤ c ∧ c ≤ 'f' then some (c.toNat - 'a'.toNat + 10)
  else if 'A' ≤ c ∧ c ≤ 'F' then some (c.toNat - 'A'.toNat + 10)
  else none

/-- Single-character string escapes of JSON. -/
def escChar (c : Char) : Option Char :=
  if c = '"' then some '"'
  else if c = '\\' then some '\\'
  else if c = '/' then some '/'
  else if c = 'b' then some '\x08'
  else if c = 'f' then some '\x0c'
  else if c = 'n' then some '\n'
  else if c = 'r' then some '\r'
  else if c = 't' then some '\t'
  else none

/-- Parse the body of a JSON string (the opening quote already consumed),
returning the decoded characters and the remaining input.  Raw control
characters are rejected, as `JSON.parse` does.  (`\uXXXX` escapes that
denote lone UTF-16 surrogates are outside the model.) -/
def parseStringChars : Nat → List Char → Option (List Char × List Char)
  | 0, _ => none
  | _, [] => none
  | fuel + 1, c :: cs =>
    if c = '"' then some ([], cs)
    else if c = '\\' then
      match cs with
      | 'u' :: h1 :: h2 :: h3 :: h4 :: cs1 =>
        match hexVal h1, hexVal h2, hexVal h3, hexVal h4 with
        | some a, some b, some c2, some d =>
          let code := ((a * 16 + b) * 16 + c2) * 16 + d
          (parseStringChars fuel cs1).map (fun p => (Char.ofNat code :: p.1, p.2))
        | _, _, _, _ => none
      | e :: cs1 =>
        match escChar e with
        | some ec => (parseStringChars fuel cs1).map (fun p => (ec :: p.1, p.2))
        | none => none
      | [] => none
    else if c.toNat < 32 then none
    else (parseStringChars fuel cs).map (fun p => (c :: p.1, p.2))

/-- Parse a JSON string body starting after the opening quote. -/
def parseStringRest (cs : List Char) : Option (String × List Char) :=
  (parseStringChars (cs.length + 1) cs).map (fun p => (String.mk p.1, p.2))

/-- The integer part of a JSON number: `0`, or a nonzero digit followed
by digits (leading zeros are invalid JSON). -/
def parseIntPart : List Char → Option (List Char × List Char)
  | [] => none
  | c :: rest =>
    if c = '0' then some ([c], rest)
    else if c.isDigit then
      some (c :: rest.takeWhile Char.isDigit, rest.dropWhile Char.isDigit)
    else none

/-- The optional exponent part of a JSON number, appended to `acc`. -/
def parseExpPart (acc : List Char) (cs : List Char) :
    Option (String × List Char) :=
  match cs with
  | c :: r =>
    if c = 'e' ∨ c = 'E' then
      let signed : List Char × List Char :=
        match r with
        | s :: r1 => if s = '+' ∨ s = '-' then ([s], r1) else ([], r)
        | [] => ([], r)
      let ds := signed.2.takeWhile Char.isDigit
      if ds = [] then none
      else some (String.mk (acc ++ c :: signed.1 ++ ds),
                 signed.2.dropWhile Char.isDigit)
    else some (String.mk acc, cs)
  | [] => some (String.mk acc, [])

/-- Parse a JSON numeric literal, keeping its text verbatim. -/
def parseNumber (cs : List Char) : Option (String × List Char) :=
  let signed : List Char × List Char :=
    match cs with
    | '-' :: r => (['-'], r)
    | _ => ([], cs)
  match parseIntPart signed.2 with
  | none => none
  | some (ip, cs2) =>
    match cs2 with
    | '.' :: r =>
      let ds := r.takeWhile Char.isDigit
      if ds = [] then none
      else parseExpPart (signed.1 ++ ip ++ '.' :: ds) (r.dropWhile Char.isDigit)
    | _ => parseExpPart (signed.1 ++ ip) cs2

/-- The parse position of the recursive-descent parser: a value, the
items of a non-empty array, or the members of a non-empty object.  A
single fuel-indexed function keeps the recursion structural. -/
inductive PMode where
  | value : PMode
  | arrItems (acc : List Json) : PMode
  | objItems (acc : List (String × Json)) : PMode

/-- Parse one JSON value (mode `value`), or the comma-separated remainder
of an array (mode `arrItems`) or object (mode `objItems`). -/
def parseMain : Nat → PMode → List Char → Option (Json × List Char)
  | 0, _, _ => none
  | fuel + 1, PMode.value, cs0 =>
    match skipWs cs0 with
    | [] => none
    | c :: rest =>
      if c = '"' then
        match parseStringRest rest with
        | some (s, r) => some (Json.str s, r)
        | none => none
      else if c = '{' then
        match skipWs rest with
        | '}' :: r => some (Json.obj [], r)
        | _ => parseMain fuel (PMode.objItems []) rest
      else if c = '[' then
        match skipWs rest with
        | ']' :: r => some (Json.arr [], r)
        | _ => parseMain fuel (PMode.arrItems []) rest
      else if c = 't' then
        match rest with
        | 'r' :: 'u' :: 'e' :: r => some (Json.bool true, r)
        | _ => none
      else if c = 'f' then
        match rest with
        | 'a' :: 'l' :: 's' :: 'e' :: r => some (Json.bool false, r)
        | _ => none
      else if c = 'n' then
        match rest with
        | 'u' :: 'l' :: 'l' :: r => some (Json.null, r)
        | _ => none
      else
        match parseNumber (c :: rest) with
        | some (raw, r) => some (Json.num raw, r)
        | none => none
  | fuel + 1, PMode.arrItems acc, cs =>
    match parseMain fuel PMode.value cs with
    | none => none
    | some (v, r) =>
      match skipWs r with
      | ',' :: r2 => parseMain fuel (PMode.arrItems (acc ++ [v])) r2
      | ']' :: r2 => some (Json.arr (acc ++ [v]), r2)
      | _ => none
  | fuel + 1, PMode.objItems acc, cs =>
    match skipWs cs with
    | '"' :: r =>
      match parseStringRest r with
      | none => none
      | some (k, r1) =>
        match skipWs r1 with
        | ':' :: r2 =>
          match parseMain fuel PMode.value r2 with
          | none => none
          | some (v, r3) =>
            match skipWs r3 with
            | ',' :: r4 => parseMain fuel (PMode.objItems (insertProp acc k v)) r4
            | '}' :: r4 => some (Json.obj (insertProp acc k v), r4)
            | _ => none
        | _ => none
    | _ => none

/-- Parse one JSON value. -/
def parseValue (fuel : Nat) (cs : List Char) : Option (Json × List Char) :=
  parseMain fuel PMode.value cs


/-- `JSON.parse`: parse the whole string as one JSON value, allowing only
surrounding JSON whitespace; `none` models a thrown `SyntaxError`. -/
def jsonParse (s : String) : Option Json :=
  match parseValue (4 * s.length + 8) s.toList with
  | some (v, rest) => if skipWs rest = [] then some v else none
  | none => none

/-! ## Result extraction (`RalphLoop.extractJson`)

`extractJson` receives the raw stdout text and recovers a JSON object:
stream detection, last-assistant-text selection, fenced-code-block
stripping (the regex match for three backticks with an optional `json`
tag), the first-`\x7b`-to-last-`\x7d` span, and a final `JSON.parse` of the
trimmed candidate. -/

/-- JavaScript `\s` / `String.prototype.trim` whitespace (ASCII range;
exotic Unicode space characters are outside the model). -/
def jsWs (c : Char) : Bool :=
  c == ' ' || c == '\t' || c == '\n' || c == '\r' || c == '\x0b' || c == '\x0c'

/-- JavaScript `String.prototype.trim`. -/
def jsTrim (s : String) : String :=
  String.mk (((s.toList.dropWhile jsWs).reverse.dropWhile jsWs).reverse)

/-- Whether the second character list starts with the first. -/
def listStarts : List Char → List Char → Bool
  | [], _ => true
  | _ :: _, [] => false
  | p :: ps, c :: cs => p == c && listStarts ps cs

/-- JavaScript `s.startsWith(lit)`. -/
def startsWithLit (s lit : String) : Bool :=
  listStarts lit.toList s.toList

/-- Split a character list at newline characters. -/
def splitNlAux : List Char → List Char → List String
  | acc, [] => [String.mk acc.reverse]
  | acc, c :: cs =>
    if c = '\n' then String.mk acc.reverse :: splitNlAux [] cs
    else splitNlAux (c :: acc) cs

/-- JavaScript `text.split('\n')`. -/
def splitNl (s : String) : List String :=
  splitNlAux [] s.toList

/-- One pass of the per-line callback in the streaming branch of
`extractJson`: parse the line, and if it is an `assistant` event whose
`message.content` holds a `text` item with truthy text, yield that text.
Invalid JSON lines, and lines whose truthy `content` is not an array
(where `.find` would throw), are skipped — both land in the swallowing
`catch` of the source.  A truthy non-string `text` value would crash the
source later (`contentText.match` on a non-string) and is outside the
model. -/
def assistantText (line : String) : Option String :=
  match jsonParse line with
  | none => none
  | some parsed =>
    match parsed.getProp "type" with
    | some (Json.str t) =>
      if t == "assistant" then
        let contentOpt : Option Json :=
          match parsed.getProp "message" with
          | some m => m.getProp "content"
          | none => none
        let contentArr : Option (List Json) :=
          match contentOpt with
          | some (Json.arr items) => some items
          | some v => if jsTruthyV v then none else some []
          | none => some []
        match contentArr with
        | none => none
        | some items =>
          match items.find? (fun c =>
              match c.getProp "type" with
              | some (Json.str ty) => ty == "text"
              | _ => false) with
          | some textContent =>
            match textContent.getProp "text" with
            | some (Json.str s) => if s == "" then none else some s
            | _ => none
          | none => none
      else none
    | _ => none

/-- All assistant texts of the stream, in line order. -/
def collectAssistantTexts (lines : List String) : List String :=
  lines.filterMap assistantText

/-- Stream detection in `extractJson`: more than one line after trimming,
and the first line starts with the literal text `\x7b"type":`. -/
def isStreamJson (text : String) : Bool :=
  let lines := splitNl (jsTrim text)
  decide (lines.length > 1) && startsWithLit (lines.headD "") "\x7b\"type\":"

/-- Whether the character list starts with three backticks. -/
def startsWithFence : List Char → Bool
  | '\x60' :: '\x60' :: '\x60' :: _ => true
  | _ => false

/-- Index of the first three-backtick fence, if any. -/
def findFence : List Char → Option Nat
  | [] => none
  | c :: rest =>
    if startsWithFence (c :: rest) then some 0
    else (findFence rest).map (fun n => n + 1)

/-- The capture group of the first match of the fenced-code-block regex
(three backticks, optional literal `json` tag, `\s*`, lazy body, three
backticks).  A match starting at the first fence exists exactly when a
second fence follows it; the tag and the greedy `\s*` never consume a
backtick, so no further backtracking arises. -/
def fenceCapture (cs : List Char) : Option (List Char) :=
  match findFence cs with
  | none => none
  | some i =>
    let after := cs.drop (i + 3)
    match findFence after with
    | none => none
    | some _ =>
      let afterTag :=
        if after.take 4 = ['j', 's', 'o', 'n'] then after.drop 4 else after
      let body := afterTag.dropWhile jsWs
      (findFence body).map (fun k => body.take k)

/-- The capture of the `\x7b[\s\S]*\x7d` regex: the span from the first
opening brace to the last closing brace, when the latter comes after the
former. -/
def braceSpan (cs : List Char) : Option (List Char) :=
  match cs.findIdx? (fun c => c = '{'), cs.reverse.findIdx? (fun c => c = '}') with
  | some i, some rj =>
    let j := cs.length - 1 - rj
    if i < j then some ((cs.drop i).take (j - i + 1)) else none
  | _, _ => none

/-- The candidate-text phase of `extractJson`: strip the first fenced
block if one matches, then narrow to the first-brace-to-last-brace span
if one matches, then `JSON.parse` the trimmed result; `none` is the
ParseError outcome (`json: null, error: non-null`). -/
def extractFromText (contentText : String) : Option Json :=
  let jsonStr1 :=
    match fenceCapture contentText.toList with
    | some cap => String.mk cap
    | none => contentText
  let jsonStr2 :=
    match braceSpan jsonStr1.toList with
    | some sp => String.mk sp
    | none => jsonStr1
  jsonParse (jsTrim jsonStr2)

/-- `RalphLoop.extractJson`: in the streaming case the last collected
assistant text becomes the candidate (the raw text stays the candidate
when no assistant text was collected); otherwise the raw text itself is
the candidate. -/
def extractJson (text : String) : Option Json :=
  let lines := splitNl (jsTrim text)
  let contentText :=
    if isStreamJson text then
      match (collectAssistantTexts lines).getLast? with
      | some t => t
      | none => text
    else text
  extractFromText contentText

/-! ## Agent invocation close-out (`RalphLoop.callClaude`) and the
execution decision (`RalphLoop.executeTask`) -/

/-- Whether a parsed stream event has the given `type` string. -/
def typeIs (event : Json) (t : String) : Bool :=
  match event.getProp "type" with
  | some (Json.str s) => s == t
  | _ => false

/-- JavaScript optional chain `j.k1?.k2`. -/
def chainProp (j : Json) (k1 k2 : String) : Option Json :=
  match j.getProp k1 with
  | some v => v.getProp k2
  | none => none

/-- The stream-consumption state of `callClaude` that feeds the final
resolve: the captured `structured_output` of a `result` event and the
`message.context_management` of an `assistant` event.  (Usage counters
feed only progress display and accounting and are omitted.) -/
structure StreamState where
  contextManagement : Option Json
  structuredOutput : Option Json

/-- Process one parsed stream event, mirroring the `result` and
`assistant` handlers in `callClaude`'s stdout callback. -/
def processEvent (st : StreamState) (event : Json) : StreamState :=
  let st1 :=
    if typeIs event "result" && jsTruthy (event.getProp "structured_output") then
      { st with structuredOutput := event.getProp "structured_output" }
    else st
  if typeIs event "assistant" && jsTruthy (chainProp event "message" "context_management") then
    { st1 with contextManagement := chainProp event "message" "context_management" }
  else st1

/-- What `callClaude`'s promise resolves with (spawn succeeded; the
`close` handler ran with the given exit code). -/
structure CallResult where
  output : Option String
  errorSet : Bool
  contextManagement : Option Json
  structuredOutput : Option Json

/-- The `close` handler of `callClaude`: on exit code 0 resolve without
an error; on a nonzero exit code resolve with an `Error` — and still with
the captured `structuredOutput` (the documented workaround). -/
def callClaudeClose (events : List Json) (stdout : String) (code : Nat) :
    CallResult :=
  let st := events.foldl processEvent ⟨none, none⟩
  { output := some stdout
    errorSet := code != 0
    contextManagement := st.contextManagement
    structuredOutput := st.structuredOutput }

/-- What `executeTask` returns: `success`, the updated task it reports,
and the exit code. -/
structure TaskOutcome where
  success : Bool
  updatedTask : Option Json
  exitCode : Nat

/-- The default security check substituted when `updatedTask.securityCheck`
is absent or falsy: `\x7b passed: true, issues: [] \x7d`. -/
def defaultSecurityCheck : Json :=
  Json.obj [("passed", Json.bool true), ("issues", Json.arr [])]

/-- `updatedTask.securityCheck || \x7b passed: true, issues: [] \x7d`. -/
def effectiveSecurityCheck (updatedTask : Json) : Json :=
  match updatedTask.getProp "securityCheck" with
  | some v => if jsTruthyV v then v else defaultSecurityCheck
  | none => defaultSecurityCheck

/-- The result ladder at the end of `executeTask`, applied to the updated
task object: a non-passing security check fails with TASK_FAILED; a truthy
`passes` succeeds; status `blocked` fails with TASK_BLOCKED; anything else
fails with TASK_FAILED. -/
def taskResultDecision (updatedTask : Json) : TaskOutcome :=
  if !jsTruthy ((effectiveSecurityCheck updatedTask).getProp "passed") then
    ⟨false, some updatedTask, EXIT_TASK_FAILED⟩
  else if jsTruthy (updatedTask.getProp "passes") then
    ⟨true, some updatedTask, EXIT_SUCCESS⟩
  else if (match updatedTask.getProp "status" with
           | some (Json.str s) => s == "blocked"
           | _ => false) then
    ⟨false, some updatedTask, EXIT_TASK_BLOCKED⟩
  else
    ⟨false, some updatedTask, EXIT_TASK_FAILED⟩

/-- The outcome-deciding tail of `executeTask` on a resolved invocation:
a context-compaction signal fails the task outright; otherwise a captured
structured output is used — even when a transport error is set; otherwise
a transport error fails with CLAUDE_ERROR; otherwise the raw output goes
through `extractJson`, whose ParseError outcome fails with SCHEMA_INVALID. -/
def executeTaskDecision (res : CallResult) : TaskOutcome :=
  if res.contextManagement.isSome then
    ⟨false, none, EXIT_TASK_FAILED⟩
  else
    match res.structuredOutput with
    | some u => taskResultDecision u
    | none =>
      if res.errorSet then ⟨false, none, EXIT_CLAUDE_ERROR⟩
      else
        match extractJson (res.output.getD "") with
        | some j => taskResultDecision j
        | none => ⟨false, none, EXIT_SCHEMA_INVALID⟩

/-! ## Progress records and the main run loop (`RalphLoop.run`)

The loop body is modelled as a fuel-indexed recursion.  `executeTask` is
abstracted by an oracle `exec : Nat → Subtask → ExecResult` giving, per
iteration, the triple `RalphLoop.executeTask` returns (`success`,
`updatedTask`, `exitCode`); the updated task written back into
`prd.userStories` is the agent-produced object and is not validated by the
source.  Every `saveState` call is recorded in order as a `LoopState`
snapshot; `invocations` counts `executeTask` calls (each performs exactly
one `callClaude`).  Timestamps (`new Date().toISOString()`) are supplied
as the parameter `now`; the display-only `summary` string is omitted. -/

/-- `progress.lastError` entries. -/
structure LastError where
  taskId : String
  message : String
  timestamp : String
deriving Repr, DecidableEq

/-- The ProgressRecord document (`progress.json`). -/
structure Progress where
  prdId : String
  startedAt : String
  completedAt : Option String
  completedTasks : List String
  currentTask : Option String
  status : String
  totalTasks : Nat
  lastError : Option LastError
  templateSet : Option String
  configPath : Option String
deriving Repr, DecidableEq

/-- The WorkItem (PRD) document; only the fields the control flow reads. -/
structure Prd where
  id : String
  userStories : List Subtask
deriving Repr, DecidableEq

/-- The pair persisted together by every `saveState` call. -/
structure LoopState where
  prd : Prd
  progress : Progress
deriving Repr, DecidableEq

/-- What `RalphLoop.executeTask` returns to the loop. -/
structure ExecResult where
  success : Bool
  updatedTask : Option Subtask
  exitCode : Nat
deriving Repr, DecidableEq

/-- Result of running the main loop: final state, ordered `saveState`
snapshots, number of `executeTask` invocations, and the loop exit code. -/
structure LoopOut where
  state : LoopState
  saves : List LoopState
  invocations : Nat
  exitCode : Nat
deriving Repr, DecidableEq

/-- The `allDone` check of the run loop's no-next-task branch: every story
has status `completed` or its id is in `completedTasks`.  (Status `failed`
does not count as done here.) -/
def allStoriesDone (userStories : List Subtask) (completedTasks : List String) :
    Bool :=
  userStories.all (fun s => s.status == "completed" || completedTasks.contains s.id)

/-- Modelled from the spec: the per-subtask "terminal" test the
specification uses to classify done-vs-blocked — status `completed` or
`failed`, or id present in the completed list.  Kept for comparison with
`allStoriesDone`, which is what the source actually evaluates. -/
def specStoryTerminal (completedTasks : List String) (s : Subtask) : Bool :=
  s.status == "completed" || s.status == "failed" || completedTasks.contains s.id

/-- The main execution loop of `RalphLoop.run` (the `while( continueLoop )`
body).  One fuel unit per iteration; fuel exhaustion returns the state
reached so far with exit code SUCCESS, representing an unfinished loop. -/
def runLoop (exec : Nat → Subtask → ExecResult) (now : String) :
    Nat → Nat → LoopState → LoopOut
  | 0, _, st => ⟨st, [], 0, EXIT_SUCCESS⟩
  | fuel + 1, iter, st =>
    match findNextTask st.prd.userStories st.progress.completedTasks with
    | none =>
      let progress1 :=
        if allStoriesDone st.prd.userStories st.progress.completedTasks then
          { st.progress with status := "completed", completedAt := some now }
        else
          { st.progress with status := "blocked" }
      let st1 : LoopState := ⟨st.prd, progress1⟩
      ⟨st1, [st1], 0, EXIT_SUCCESS⟩
    | some nextTask =>
      let taskIndex := st.prd.userStories.findIdx (fun s : Subtask => s.id == nextTask.id)
      let progress1 := { st.progress with currentTask := some nextTask.id }
      let stSave : LoopState := ⟨st.prd, progress1⟩
      let r := exec iter nextTask
      let userStories2 :=
        match r.updatedTask with
        | some u => st.prd.userStories.set taskIndex u
        | none => st.prd.userStories
      let prd2 : Prd := { st.prd with userStories := userStories2 }
      if r.success then
        let progress2 := { progress1 with
          completedTasks := progress1.completedTasks ++ [nextTask.id]
          currentTask := none }
        let st2 : LoopState := ⟨prd2, progress2⟩
        let rest := runLoop exec now fuel (iter + 1) st2
        ⟨rest.state, stSave :: st2 :: rest.saves, 1 + rest.invocations, rest.exitCode⟩
      else
        let progress2 := { progress1 with
          currentTask := none
          status := if r.exitCode == EXIT_TASK_BLOCKED then "blocked" else "paused"
          lastError := some
            { taskId := nextTask.id
              message :=
                match r.updatedTask with
                | some u =>
                  match u.notes with
                  | some n => if n == "" then "Task failed" else n
                  | none => "Task failed"
                | none => "Task failed"
              timestamp := now } }
        let st2 : LoopState := ⟨prd2, progress2⟩
        ⟨st2, [stSave, st2], 1, r.exitCode⟩

/-- The progress object created by `RalphLoop.init` (lines constructing
`progress` before the first `saveState`). -/
def initProgress (prd : Prd) (now : String) (templateSet : String)
    (configPath : Option String) : Progress :=
  { prdId := prd.id
    startedAt := now
    completedAt := none
    completedTasks := []
    currentTask := none
    status := "initialized"
    totalTasks := prd.userStories.length
    lastError := none
    templateSet := some templateSet
    configPath := configPath }

/-- JavaScript truthiness of `progress.templateSet` (a pinned set name is
a non-empty string). -/
def templatePinned : Option String → Bool
  | some s => s != ""
  | none => false

/-- The environment of one `RalphLoop.run` call: what
`checkExistingProject` found, the CLI arguments, the abstracted `init`
conversion outcome for fresh projects, and the execution oracle.
`init`'s internals (template loading, PRD validation) are collaborator
calls abstracted by `initOk`/`initExit`/`initPrd`; the non-throwing
failure paths of `init` have performed exactly one conversion invocation
and no `saveState`. -/
structure RunEnv where
  existsDir : Bool
  prd0 : Option Prd
  progress0 : Option Progress
  templateSet : String
  configPath : Option String
  dryRun : Bool
  initOk : Bool
  initExit : Nat
  initPrd : Prd
  exec : Nat → Subtask → ExecResult
  fuel : Nat
  now : String

/-- Result of one `RalphLoop.run` call: exit code, ordered `saveState`
snapshots, and number of `callClaude` invocations (conversion and task). -/
structure RunOut where
  exitCode : Nat
  saves : List LoopState
  invocations : Nat
deriving Repr, DecidableEq

/-- The tail of `RalphLoop.run` shared by the resume and fresh-project
paths: the dry-run early return, the transition to status `running` with
its `saveState`, and the main loop. -/
def runAfterInit (env : RunEnv) (prd : Prd) (progress : Progress)
    (saves0 : List LoopState) (invocations0 : Nat) : RunOut :=
  if env.dryRun then ⟨EXIT_SUCCESS, saves0, invocations0⟩
  else
    let progressR := { progress with status := "running" }
    let stR : LoopState := ⟨prd, progressR⟩
    let out := runLoop env.exec env.now env.fuel 0 stR
    ⟨out.exitCode, saves0 ++ stR :: out.saves, invocations0 + out.invocations⟩

/-- `RalphLoop.run`: on an existing project, first the template-set
consistency gate (a pinned, non-default, different requested set fails
fast with INVALID_ARGS before any write), then the completed-status
no-op-success return, then the loop; on a fresh project, `init` (one
conversion invocation; on success one `saveState` of the new pair),
then the loop. -/
def runModel (env : RunEnv) : RunOut :=
  match env.existsDir, env.prd0, env.progress0 with
  | true, some prd, some progress =>
    if templatePinned progress.templateSet &&
        env.templateSet != "default" &&
        (progress.templateSet.getD "") != env.templateSet then
      ⟨EXIT_INVALID_ARGS, [], 0⟩
    else if progress.status == "completed" then
      ⟨EXIT_SUCCESS, [], 0⟩
    else
      runAfterInit env prd progress [] 0
  | _, _, _ =>
    if env.initOk then
      let progress := initProgress env.initPrd env.now env.templateSet env.configPath
      runAfterInit env env.initPrd progress [⟨env.initPrd, progress⟩] 1
    else
      ⟨env.initExit, [], 1⟩

/-! ## Configuration validation (`UserConfig`, `ToolRegistry`, `ClaudeTool`) -/

/-- String conversion used in validator message interpolation.  Array and
object conversions are abbreviated (JavaScript would join array elements
and print `[object Object]`); no verified property inspects a message
produced from an array or object value. -/
def jsDisplay : Option Json → String
  | none => "undefined"
  | some .null => "null"
  | some (.bool b) => if b then "true" else "false"
  | some (.num r) => r
  | some (.str s) => s
  | some (.arr _) => "[array]"
  | some (.obj _) => "[object Object]"

/-- Whether a JSON value is an array (`Array.isArray`). -/
def isJsonArr : Json → Bool
  | .arr _ => true
  | _ => false

/-- The per-option schema of `ClaudeTool.#optionsSchema`: expected
`typeof`, and the allowed values for `outputFormat`. -/
def claudeOptionsSchema : List (String × (String × Option (List String))) :=
  [("dangerouslySkipPermissions", ("boolean", none)),
   ("verbose", ("boolean", none)),
   ("outputFormat", ("string", some ["stream-json", "json", "text"]))]

/-- Validation of one entry of `config.options` in `ClaudeTool.validate`:
unknown keys, `typeof` mismatches, and disallowed `outputFormat` values. -/
def claudeValidateOption (kv : String × Json) : List String :=
  match claudeOptionsSchema.lookup kv.1 with
  | none => ["config.options." ++ kv.1 ++ ": Unknown option"]
  | some sch =>
    if jsTypeof kv.2 != sch.1 then
      ["config.options." ++ kv.1 ++ ": Must be type \"" ++ sch.1 ++
        "\", got \"" ++ jsTypeof kv.2 ++ "\""]
    else
      match sch.2 with
      | some allowed =>
        match kv.2 with
        | Json.str s =>
          if allowed.contains s then []
          else ["config.options." ++ kv.1 ++ ": Invalid value \"" ++ s ++
                 "\". Allowed: " ++ String.intercalate ", " allowed]
        | _ => []
      | none => []

/-- `ClaudeTool.validate`: the tool name must be `claude`; `options` is
optional but must be a plain object whose entries satisfy the schema. -/
def claudeValidate (config : Json) : Bool × List String :=
  match config.getProp "tool" with
  | some (Json.str "claude") =>
    match config.getProp "options" with
    | none => (true, [])
    | some (Json.obj props) =>
      let msgs := props.foldl (fun acc kv => acc ++ claudeValidateOption kv) []
      (msgs.isEmpty, msgs)
    | some _ => (false, ["config.options: Must be an object"])
  | other =>
    (false, ["ClaudeTool.validate: Expected tool \"claude\", got \"" ++
              jsDisplay other ++ "\""])

/-- `ClaudeTool.validateSkipContext`: optional, must be a boolean. -/
def claudeValidateSkipContext (config : Json) : Bool × List String :=
  match config.getProp "skipContext" with
  | none => (true, [])
  | some v =>
    if jsTypeof v == "boolean" then (true, [])
    else (false, ["config.skipContext: Must be type \"boolean\", got \"" ++
                   jsTypeof v ++ "\""])

/-- The three field checks of `ClaudeTool.validateOutputSchema` on an
object (or array — `typeof` passes) schema value. -/
def claudeSchemaChecks (s : Json) : List String :=
  (match s.getProp "type" with
   | some (Json.str "object") => []
   | some t =>
     if jsTruthyV t then ["outputSchema.type: Root type should be \"object\""]
     else []
   | none => []) ++
  (match s.getProp "required" with
   | some (Json.arr _) => []
   | some r =>
     if jsTruthyV r then ["outputSchema.required: Must be an array"] else []
   | none => []) ++
  (match s.getProp "properties" with
   | some p =>
     if jsTruthyV p && !(jsTypeof p == "object") then
       ["outputSchema.properties: Must be an object"]
     else []
   | none => [])

/-- `ClaudeTool.validateOutputSchema`: falsy schemas are valid; truthy
non-objects are rejected; objects get the three field checks. -/
def claudeValidateOutputSchema (schema : Option Json) : Bool × List String :=
  if !jsTruthy schema then (true, [])
  else
    match schema with
    | some (Json.obj props) =>
      let msgs := claudeSchemaChecks (Json.obj props)
      (msgs.isEmpty, msgs)
    | some (Json.arr items) =>
      let msgs := claudeSchemaChecks (Json.arr items)
      (msgs.isEmpty, msgs)
    | _ => (false, ["outputSchema: Must be an object"])

/-- `config.tool === 'claude'`. -/
def toolIsClaude (config : Json) : Bool :=
  match config.getProp "tool" with
  | some (Json.str s) => s == "claude"
  | _ => false

/-- `ToolRegistry.validateToolConfig`: a falsy `tool` is missing; the only
registered tool name is `claude` (any other truthy value misses the
registry lookup); a hit delegates to `ClaudeTool.validate`. -/
def validateToolConfig (config : Json) : Bool × List String :=
  let toolJ := config.getProp "tool"
  if !jsTruthy toolJ then
    (false, ["config.tool: Missing required field"])
  else
    match toolJ with
    | some (Json.str "claude") => claudeValidate config
    | _ =>
      (false, ["config.tool: Unknown tool \"" ++ jsDisplay toolJ ++
                "\". Available: claude"])

/-- The per-element checks of `UserConfig.#validateConfigArray`: each
element must be a plain object carrying a `tool` key. -/
def validateConfigArrayElems (arrayName : String) (items : List Json) :
    List String :=
  items.enum.foldl (fun acc p =>
    match p.2 with
    | Json.obj props =>
      match (Json.obj props).getProp "tool" with
      | some _ => acc
      | none => acc ++ ["set.json." ++ arrayName ++ "[" ++ toString p.1 ++
                         "]: Missing required key \"tool\""]
    | _ => acc ++ ["set.json." ++ arrayName ++ "[" ++ toString p.1 ++
                    "]: Must be an object"]) []

/-- `UserConfig.#validateConfigArray`: must be a non-empty array of
objects each carrying a `tool` key. -/
def validateConfigArray (arrayName : String) (v : Option Json) :
    Bool × List String :=
  match v with
  | some (Json.arr items) =>
    if items.isEmpty then
      (false, ["set.json." ++ arrayName ++
                ": Array must contain at least one tool config"])
    else
      let msgs := validateConfigArrayElems arrayName items
      (msgs.isEmpty, msgs)
  | _ => (false, ["set.json." ++ arrayName ++ ": Must be an array"])

/-- The `conversion`-phase half of `UserConfig.#validateToolConfigs`. -/
def validateConversionConfigs (items : List Json) : List String :=
  items.enum.foldl (fun acc p =>
    let pre := "conversion[" ++ toString p.1 ++ "]."
    let reg := validateToolConfig p.2
    let m1 := if reg.1 then [] else reg.2.map (fun m => pre ++ m)
    let m2 :=
      if jsTruthy ((p.2).getProp "outputSchema") && toolIsClaude p.2 then
        let sr := claudeValidateOutputSchema ((p.2).getProp "outputSchema")
        if sr.1 then [] else sr.2.map (fun m => pre ++ m)
      else []
    acc ++ m1 ++ m2) []

/-- The `task`-phase half of `UserConfig.#validateToolConfigs` (adds the
`skipContext` check for the claude tool). -/
def validateTaskConfigs (items : List Json) : List String :=
  items.enum.foldl (fun acc p =>
    let pre := "task[" ++ toString p.1 ++ "]."
    let reg := validateToolConfig p.2
    let m1 := if reg.1 then [] else reg.2.map (fun m => pre ++ m)
    let m2 :=
      if toolIsClaude p.2 then
        let sk := claudeValidateSkipContext p.2
        (if sk.1 then [] else sk.2.map (fun m => pre ++ m)) ++
        (if jsTruthy ((p.2).getProp "outputSchema") then
          let sr := claudeValidateOutputSchema ((p.2).getProp "outputSchema")
          if sr.1 then [] else sr.2.map (fun m => pre ++ m)
        else [])
      else []
    acc ++ m1 ++ m2) []

/-- The required top-level keys of a set configuration. -/
def setRequiredKeys : List String := ["name", "version", "conversion", "task"]

/-- The missing-required-key message of `UserConfig.validateSetConfig`. -/
def missingKeyMsg (key : String) : String :=
  "set.json: Missing required key \"" ++ key ++ "\""

/-- `UserConfig.validateSetConfig`: step 1 checks the four required
top-level keys and short-circuits when any is missing; step 2 checks the
two phase arrays and short-circuits on failure; step 3 runs the
tool-specific validators. -/
def validateSetConfig (setConfig : Json) : Bool × List String :=
  let step1 := setRequiredKeys.foldl (fun acc key =>
    match setConfig.getProp key with
    | none => acc ++ [missingKeyMsg key]
    | some _ => acc) []
  if !step1.isEmpty then (false, step1)
  else
    let conv := validateConfigArray "conversion" (setConfig.getProp "conversion")
    let task := validateConfigArray "task" (setConfig.getProp "task")
    let step2 := conv.2 ++ task.2
    if !conv.1 || !task.1 then (false, step2)
    else
      let toolMessages :=
        (match setConfig.getProp "conversion" with
         | some (Json.arr items) => validateConversionConfigs items
         | _ => []) ++
        (match setConfig.getProp "task" with
         | some (Json.arr items) => validateTaskConfigs items
         | _ => [])
      let messages := step2 ++ toolMessages
      (messages.isEmpty, messages)

/-- The default tool options object used by the legacy migration. -/
def migrationDefaultOptions : Json :=
  Json.obj [("dangerouslySkipPermissions", Json.bool true),
            ("verbose", Json.bool true),
            ("outputFormat", Json.str "stream-json")]

/-- One phase of migration 2 in `UserConfig.#migrateSetConfig`: a truthy
non-array phase value is wrapped into a one-element array in place. -/
def wrapPhase (cfg : Json) (phase : String) : Json × Bool :=
  match cfg.getProp phase with
  | some v =>
    if jsTruthyV v && !isJsonArr v then
      match cfg with
      | Json.obj props => (Json.obj (insertProp props phase (Json.arr [v])), true)
      | _ => (cfg, false)
    else (cfg, false)
  | none => (cfg, false)

/-- `UserConfig.#migrateSetConfig`: migration 1 rewrites the legacy
`options.skipTaskContext` shape (defined `skipTaskContext`, falsy `task`)
into the two-phase list shape, carrying the flag as `skipContext`;
migration 2 wraps single-object `conversion`/`task` values into
one-element arrays. -/
def migrateSetConfig (setConfig : Json) : Json × Bool :=
  if (chainProp setConfig "options" "skipTaskContext").isSome &&
      !jsTruthy (setConfig.getProp "task") then
    match setConfig with
    | Json.obj props =>
      let conv := Json.arr [Json.obj
        [("tool", Json.str "claude"), ("options", migrationDefaultOptions)]]
      let taskV := Json.arr [Json.obj
        [("tool", Json.str "claude"), ("options", migrationDefaultOptions),
         ("skipContext",
           (chainProp setConfig "options" "skipTaskContext").getD Json.null)]]
      (Json.obj (insertProp (insertProp props "conversion" conv) "task" taskV),
        true)
    | _ => (setConfig, true)
  else
    let w1 := wrapPhase setConfig "conversion"
    let w2 := wrapPhase w1.1 "task"
    (w2.1, w1.2 || w2.2)

/-- Lowercase hexadecimal digit. -/
def hexDigitChar (n : Nat) : Char :=
  if n < 10 then Char.ofNat ('0'.toNat + n) else Char.ofNat ('a'.toNat + n - 10)

/-- `JSON.stringify` escaping of one string character. -/
def stringifyEscChar (c : Char) : String :=
  if c = '"' then "\\\""
  else if c = '\\' then "\\\\"
  else if c = '\n' then "\\n"
  else if c = '\r' then "\\r"
  else if c = '\t' then "\\t"
  else if c = '\x08' then "\\b"
  else if c = '\x0c' then "\\f"
  else if c.toNat < 32 then
    String.mk ['\\', 'u', '0', '0', hexDigitChar (c.toNat / 16),
               hexDigitChar (c.toNat % 16)]
  else String.singleton c

/-- `JSON.stringify` of a string value. -/
def quoteJsonString (s : String) : String :=
  "\"" ++ String.join (s.toList.map stringifyEscChar) ++ "\""

/-- The four-space indentation unit of `JSON.stringify(v, null, 4)`. -/
def gap4 : String := "    "

mutual

/-- `JSON.stringify(v, null, 4)` at the given accumulated indentation. -/
def stringifyVal (ind : String) : Json → String
  | .null => "null"
  | .bool b => if b then "true" else "false"
  | .num raw => raw
  | .str s => quoteJsonString s
  | .arr [] => "[]"
  | .arr (v :: rest) =>
    "[\n" ++ stringifyItems (ind ++ gap4) (v :: rest) ++ "\n" ++ ind ++ "]"
  | .obj [] => "\x7b\x7d"
  | .obj (kv :: rest) =>
    "\x7b\n" ++ stringifyProps (ind ++ gap4) (kv :: rest) ++ "\n" ++ ind ++ "\x7d"

/-- Array items, one per line, comma-separated. -/
def stringifyItems (ind : String) : List Json → String
  | [] => ""
  | [v] => ind ++ stringifyVal ind v
  | v :: rest => ind ++ stringifyVal ind v ++ ",\n" ++ stringifyItems ind rest

/-- Object members, one per line, comma-separated. -/
def stringifyProps (ind : String) : List (String × Json) → String
  | [] => ""
  | [(k, v)] => ind ++ quoteJsonString k ++ ": " ++ stringifyVal ind v
  | (k, v) :: rest =>
    ind ++ quoteJsonString k ++ ": " ++ stringifyVal ind v ++ ",\n" ++
      stringifyProps ind rest

end

/-- `JSON.stringify(v, null, 4)`. -/
def jsonStringify4 (v : Json) : String := stringifyVal "" v

/-- `UserConfig.#defaultSetContent`, the expected-structure document shown
by configuration errors. -/
def defaultSetContent : Json :=
  Json.obj
    [("name", Json.str "prd-generator"),
     ("description", Json.str "Ralph templates for generating PRDs from Meta-PRD"),
     ("version", Json.str "1.0.0"),
     ("systemPrompt", Json.str "system.prompt.md"),
     ("conversion", Json.arr
       [Json.obj
         [("tool", Json.str "claude"),
          ("options", Json.obj
            [("dangerouslySkipPermissions", Json.bool true),
             ("verbose", Json.bool true),
             ("outputFormat", Json.str "stream-json")]),
          ("outputSchema", Json.obj
            [("type", Json.str "object"),
             ("required", Json.arr
               [Json.str "id", Json.str "title", Json.str "userStories",
                Json.str "targetDirs", Json.str "branchName"]),
             ("properties", Json.obj
               [("id", Json.obj [("type", Json.str "string")]),
                ("title", Json.obj [("type", Json.str "string")]),
                ("branchName", Json.obj [("type", Json.str "string")]),
                ("targetDirs", Json.obj [("type", Json.str "array")]),
                ("userStories", Json.obj
                  [("type", Json.str "array"),
                   ("minItems", Json.num "1")])])])]]),
     ("task", Json.arr
       [Json.obj
         [("tool", Json.str "claude"),
          ("options", Json.obj
            [("dangerouslySkipPermissions", Json.bool true),
             ("verbose", Json.bool true),
             ("outputFormat", Json.str "stream-json")]),
          ("skipContext", Json.bool false),
          ("outputSchema", Json.obj
            [("type", Json.str "object"),
             ("required", Json.arr
               [Json.str "id", Json.str "status", Json.str "passes",
                Json.str "securityCheck"]),
             ("properties", Json.obj
               [("id", Json.obj [("type", Json.str "string")]),
                ("status", Json.obj
                  [("type", Json.str "string"),
                   ("enum", Json.arr
                     [Json.str "completed", Json.str "failed",
                      Json.str "blocked", Json.str "pending"])]),
                ("passes", Json.obj [("type", Json.str "boolean")]),
                ("securityCheck", Json.obj [("type", Json.str "object")]),
                ("commits", Json.obj [("type", Json.str "array")]),
                ("changedFiles", Json.obj [("type", Json.str "array")]),
                ("generatedPrds", Json.obj [("type", Json.str "array")])])])]])]

/-- The expected-structure text included in set-configuration load errors:
`JSON.stringify( #defaultSetContent, null, 4 )`. -/
def expectedSetStructure : String := jsonStringify4 defaultSetContent

/-- `UserConfig.loadSetConfig`, after the file read: `raw` is the parsed
file content (`none` when reading or `JSON.parse` threw, with `readErr`
the thrown message).  A validation failure throws inside the `try`, is
caught by the surrounding `catch`, and is re-wrapped — the raised
message therefore embeds the expected-structure text (twice on the
validation path). -/
def loadSetConfig (setJsonPath : String) (readErr : String)
    (raw : Option Json) : Except String Json :=
  match raw with
  | none =>
    Except.error ("Set config not found or invalid: " ++ setJsonPath ++
      "\nError: " ++ readErr ++
      "\nExpected structure:\n" ++ expectedSetStructure ++
      "\nCopy examples/.ralph/ to ~/.ralph/")
  | some rawConfig =>
    let migrated := migrateSetConfig rawConfig
    let vr := validateSetConfig migrated.1
    if vr.1 then Except.ok migrated.1
    else
      let errorMessages := String.intercalate "\n  - " vr.2
      let innerMsg := "Set config validation failed: " ++ setJsonPath ++
        "\nErrors:\n  - " ++ errorMessages ++
        "\nExpected structure:\n" ++ expectedSetStructure
      Except.error ("Set config not found or invalid: " ++ setJsonPath ++
        "\nError: " ++ innerMsg ++
        "\nExpected structure:\n" ++ expectedSetStructure ++
        "\nCopy examples/.ralph/ to ~/.ralph/")

/-! ## Specification-side comparison definitions

These follow the specification's words (not the source) and exist only to
be compared against the source-derived definitions above. -/

/-- Modelled from the spec: stream detection as the specification words
it — "first line parses as JSON and more than one line exists" (the
source instead tests a literal `\x7b"type":` prefix). -/
def isStreamJsonSpecC5 (text : String) : Bool :=
  let lines := splitNl (jsTrim text)
  decide (lines.length > 1) && (jsonParse (lines.headD "")).isSome

/-- Modelled from the spec: `extractJson` with the specification's
detection condition substituted; all later stages as in the source. -/
def extractJsonSpecC5 (text : String) : Option Json :=
  let lines := splitNl (jsTrim text)
  let contentText :=
    if isStreamJsonSpecC5 text then
      match (collectAssistantTexts lines).getLast? with
      | some t => t
      | none => text
    else text
  extractFromText contentText

/-- Scan for the closing brace matching an already-open object at the
given nesting depth, accumulating the consumed characters. -/
def balanceScan : Nat → List Char → List Char → Option (List Char)
  | _, _, [] => none
  | depth, acc, c :: r =>
    if c = '{' then balanceScan (depth + 1) (acc ++ [c]) r
    else if c = '}' then
      if depth = 1 then some (acc ++ [c])
      else balanceScan (depth - 1) (acc ++ [c]) r
    else balanceScan depth (acc ++ [c]) r

/-- Modelled from the spec: "locate the first top-level `\x7b...\x7d` object in
the remaining text" — the brace-balanced span starting at the first
opening brace (the source instead spans from the first opening brace to
the last closing brace of the whole text). -/
def firstBalancedObject (cs : List Char) : Option (List Char) :=
  match cs.dropWhile (fun c => c != '{') with
  | [] => none
  | c :: rest => balanceScan 1 [c] rest

/-- Modelled from the spec: the candidate-text phase with the
specification's first-top-level-object location substituted. -/
def extractFromTextSpecC6 (contentText : String) : Option Json :=
  let jsonStr1 :=
    match fenceCapture contentText.toList with
    | some cap => String.mk cap
    | none => contentText
  let jsonStr2 :=
    match firstBalancedObject jsonStr1.toList with
    | some sp => String.mk sp
    | none => jsonStr1
  jsonParse (jsTrim jsonStr2)

/-- Modelled from the spec: the done-vs-blocked classification using the
specification's per-subtask terminal test (`completed`/`failed`/id
completed), for comparison with the source's `allStoriesDone`. -/
def specClassifyNoTask (userStories : List Subtask)
    (completedTasks : List String) : String :=
  if userStories.all (specStoryTerminal completedTasks) then "completed"
  else "blocked"

/-! ## Concrete sample values used by witnesses and counterexamples -/

/-- A stream of two assistant messages; only the second text is JSON. -/
def c5StreamInput : String :=
  "\x7b\"type\":\"assistant\",\"message\":\x7b\"content\":[\x7b\"type\":\"text\",\"text\":\"not json\"\x7d]\x7d\x7d\n\x7b\"type\":\"assistant\",\"message\":\x7b\"content\":[\x7b\"type\":\"text\",\"text\":\"\x7b\\\"b\\\":2\x7d\"\x7d]\x7d\x7d"

/-- Two lines whose first is valid JSON but lacks the `\x7b"type":` prefix;
the second is an assistant event carrying JSON text. -/
def c5DetectInput : String :=
  "\x7b\"a\":1\x7d\n\x7b\"type\":\"assistant\",\"message\":\x7b\"content\":[\x7b\"type\":\"text\",\"text\":\"\x7b\\\"b\\\":2\x7d\"\x7d]\x7d\x7d"

/-- The fenced-block example of the specification. -/
def c6FenceInput : String := "\x60\x60\x60json\n\x7b\"a\":1\x7d\n\x60\x60\x60"

/-- A candidate with a complete object followed by text containing a
later closing brace. -/
def c6SpanInput : String := "\x7b\"a\":1\x7d and \x7b\"b\":2\x7d"

/-- A progress record in mid-run shape with nothing completed. -/
def baseProgress : Progress :=
  { prdId := "prd-1", startedAt := "t0", completedAt := none,
    completedTasks := [], currentTask := none, status := "running",
    totalTasks := 1, lastError := none, templateSet := some "default",
    configPath := none }

/-- A story already in status `failed` and not in the completed list. -/
def failedStory : Subtask := { id := "T1", status := "failed", dependencies := [] }

/-- A loop state whose only story has failed. -/
def c2State : LoopState := ⟨⟨"prd-1", [failedStory]⟩, baseProgress⟩

/-- An oracle whose outcome is never consulted (no task is executed). -/
def idleExec : Nat → Subtask → ExecResult :=
  fun _ _ => ⟨false, none, EXIT_TASK_FAILED⟩

/-- An oracle that reports success but hands back an updated task whose
id differs from the executed story's id. -/
def renameExec : Nat → Subtask → ExecResult :=
  fun _ _ => ⟨true, some { id := "X", status := "completed", dependencies := [] },
    EXIT_SUCCESS⟩

/-- The run environment of a resume naming template set `beta` against a
project pinned to `alpha`. -/
def c3Env : RunEnv :=
  { existsDir := true, prd0 := some ⟨"prd-1", [taskA]⟩,
    progress0 := some { baseProgress with templateSet := some "alpha" },
    templateSet := "beta", configPath := none, dryRun := false,
    initOk := true, initExit := EXIT_SUCCESS, initPrd := ⟨"prd-1", []⟩,
    exec := idleExec, fuel := 4, now := "t1" }

/-- As `c3Env`, but the persisted progress is already `completed`. -/
def c7MismatchEnv : RunEnv :=
  { c3Env with progress0 := some { baseProgress with
      templateSet := some "alpha", status := "completed" } }

/-- A plain resume (default template set) of a completed project. -/
def c7ResumeEnv : RunEnv :=
  { c3Env with
    templateSet := "default"
    progress0 := some { baseProgress with
      templateSet := some "alpha", status := "completed" } }

/-- A structured result with no `securityCheck` field and a truthy
`passes`. -/
def c10NoSecurity : Json :=
  Json.obj [("id", Json.str "T1"), ("passes", Json.bool true)]

/-- A structured result whose `securityCheck` is a truthy object without
a `passed` field, and whose `passes` is true. -/
def c10EmptySecurity : Json :=
  Json.obj [("securityCheck", Json.obj []), ("passes", Json.bool true)]

/-- A `result` stream event carrying a structured output. -/
def c4ResultEvent : Json :=
  Json.obj [("type", Json.str "result"),
            ("structured_output", Json.obj [("passes", Json.bool true)])]

/-- A set-configuration document missing the top-level `task` key. -/
def c8Doc : Json :=
  Json.obj [("name", Json.str "test-set"),
            ("version", Json.str "1.0.0"),
            ("conversion", Json.arr [Json.obj [("tool", Json.str "claude")]])]

/-- The loop state of the C9 counterexample run. -/
def c9State : LoopState := ⟨⟨"prd-1", [taskA]⟩, baseProgress⟩

/-- The invariant of claim C9: completed ids are drawn from the current
work item's story ids and contain no duplicates. -/
def completedInv (st : LoopState) : Prop :=
  (∀ i ∈ st.progress.completedTasks, i ∈ st.prd.userStories.map Subtask.id) ∧
  st.progress.completedTasks.Nodup

/-- An execution oracle whose reported updated task always keeps the id
of the executed story. -/
def execPreservesIds (exec : Nat → Subtask → ExecResult) : Prop :=
  ∀ n t u, (exec n t).updatedTask = some u → u.id = t.id

/-! ## Theorems -/

/-- `List.find?` returns the first element satisfying the predicate: the
found element satisfies it and every earlier element falsifies it. -/
theorem find?_first_characterization {α : Type} (p : α → Bool) :
    ∀ (l : List α) (t : α), l.find? p = some t →
      p t = true ∧ ∃ i : Nat, l.get? i = some t ∧
        ∀ j u, j < i → l.get? j = some u → p u = false := by
  intro l
  induction l with
  | nil => intro t h; simp at h
  | cons a l ih =>
    intro t h
    by_cases hpa : p a = true
    · rw [List.find?_cons_of_pos _ hpa] at h
      injection h with h
      subst h
      exact ⟨hpa, 0, rfl, fun j u hj _ => by omega⟩
    · rw [List.find?_cons_of_neg _ (by simpa using hpa)] at h
      obtain ⟨hpt, i, hi, hfirst⟩ := ih t h
      refine ⟨hpt, i + 1, by simpa using hi, ?_⟩
      intro j u hj hju
      cases j with
      | zero =>
        injection hju with hju
        subst hju
        simpa using hpa
      | succ j => exact hfirst j u (by omega) (by simpa using hju)

/-- Claim C1: `findNextTask` returns the first subtask in declaration order
whose id is not completed, whose status is neither `completed` nor `failed`,
and whose dependency ids are all completed; it returns `none` when no
subtask qualifies.  For A(deps:[]), B(deps:[A]), C(deps:[A]) in that order
the initial selection is A, and after completing A the selection is B. -/
theorem findNextTask_selects_first_eligible
    (userStories : List Subtask) (completedIds : List String) :
    (∀ t, findNextTask userStories completedIds = some t →
      storyEligible completedIds t = true ∧ ∃ i : Nat,
        userStories.get? i = some t ∧
        ∀ j u, j < i → userStories.get? j = some u →
          storyEligible completedIds u = false) ∧
    (findNextTask userStories completedIds = none ↔
      ∀ t ∈ userStories, storyEligible completedIds t = false) ∧
    findNextTask [taskA, taskB, taskC] [] = some taskA ∧
    findNextTask [taskA, taskB, taskC] ["A"] = some taskB := by
  refine ⟨fun t h => find?_first_characterization _ _ t h, ?_, by decide, by decide⟩
  constructor
  · intro h t ht
    have := List.find?_eq_none.mp h t ht
    simpa using this
  · intro h
    exact List.find?_eq_none.mpr (fun t ht => by simp [h t ht])

/-- Witness for C1 at a concrete input: the resolver's pick `taskA` from
`[A, B, C]` with nothing completed is eligible and first. -/
theorem findNextTask_selects_first_eligible_witness :
    storyEligible [] taskA = true ∧ ∃ i : Nat,
      [taskA, taskB, taskC].get? i = some taskA ∧
      ∀ j u, j < i → [taskA, taskB, taskC].get? j = some u →
        storyEligible [] u = false :=
  (findNextTask_selects_first_eligible [taskA, taskB, taskC] []).1 taskA (by decide)

/-- Claim C2, amended: when the loop finds no eligible subtask, the status
becomes `completed` exactly when every story has status `completed` or its
id is in `completedTasks` (`allStoriesDone`), and `blocked` otherwise; the
completed list is unchanged.  Unlike the claim's wording, status `failed`
alone does not count toward completion. -/
theorem runLoop_no_task_classification
    (exec : Nat → Subtask → ExecResult) (now : String)
    (fuel iter : Nat) (st : LoopState)
    (h : findNextTask st.prd.userStories st.progress.completedTasks = none) :
    (runLoop exec now (fuel + 1) iter st).state.progress.status =
      (if allStoriesDone st.prd.userStories st.progress.completedTasks
       then "completed" else "blocked") ∧
    (runLoop exec now (fuel + 1) iter st).state.progress.completedTasks =
      st.progress.completedTasks := by
  by_cases hd : allStoriesDone st.prd.userStories st.progress.completedTasks
  · simp [runLoop, h, hd]
  · simp [runLoop, h, hd]

/-- Witness for C2 at a concrete input: the single-failed-story state. -/
theorem runLoop_no_task_classification_witness :
    (runLoop idleExec "t1" 1 0 c2State).state.progress.status =
      (if allStoriesDone c2State.prd.userStories c2State.progress.completedTasks
       then "completed" else "blocked") ∧
    (runLoop idleExec "t1" 1 0 c2State).state.progress.completedTasks =
      c2State.progress.completedTasks :=
  runLoop_no_task_classification idleExec "t1" 0 0 c2State (by decide)

/-- Counterexample to C2 as stated: with one story of status `failed` and
nothing completed, every story is terminal in the specification's sense
(so the claim requires status `completed`), yet the loop sets `blocked`. -/
theorem runLoop_no_task_spec_counterexample :
    findNextTask c2State.prd.userStories c2State.progress.completedTasks = none ∧
    c2State.prd.userStories.all
      (specStoryTerminal c2State.progress.completedTasks) = true ∧
    specClassifyNoTask c2State.prd.userStories c2State.progress.completedTasks =
      "completed" ∧
    (runLoop idleExec "t1" 1 0 c2State).state.progress.status = "blocked" := by
  exact ⟨by decide, by decide, rfl, rfl⟩

/-- Claim C3: resuming an existing project whose progress pins a template
set, with a requested set that is neither `default` nor the pinned one,
fails fast with INVALID_ARGS (the ConsistencyError surface of the engine)
before any `saveState` write and before any agent invocation. -/
theorem run_template_mismatch_fails_fast
    (env : RunEnv) (prd : Prd) (progress : Progress)
    (hex : env.existsDir = true) (hp : env.prd0 = some prd)
    (hg : env.progress0 = some progress)
    (hpin : templatePinned progress.templateSet = true)
    (hne : env.templateSet ≠ "default")
    (hdiff : progress.templateSet.getD "" ≠ env.templateSet) :
    runModel env = ⟨EXIT_INVALID_ARGS, [], 0⟩ := by
  have h1 : (env.templateSet != "default") = true := by
    simpa using hne
  have h2 : (progress.templateSet.getD "" != env.templateSet) = true := by
    simpa using hdiff
  simp [runModel, hex, hp, hg, hpin, h1, h2]

/-- Witness for C3 at a concrete input: pinned `alpha`, requested `beta`. -/
theorem run_template_mismatch_fails_fast_witness :
    runModel c3Env = ⟨EXIT_INVALID_ARGS, [], 0⟩ :=
  run_template_mismatch_fails_fast c3Env ⟨"prd-1", [taskA]⟩
    { baseProgress with templateSet := some "alpha" }
    rfl rfl rfl (by decide) (by decide) (by decide)

/-- Claim C7, amended: resuming an existing project whose progress is
`completed` returns SUCCESS immediately, with no `saveState` write and no
agent invocation — provided the request passes the template-set
consistency gate; a conflicting requested set instead fails with
INVALID_ARGS (see the counterexample). -/
theorem run_completed_resume_noop
    (env : RunEnv) (prd : Prd) (progress : Progress)
    (hex : env.existsDir = true) (hp : env.prd0 = some prd)
    (hg : env.progress0 = some progress)
    (hgate : (templatePinned progress.templateSet &&
        env.templateSet != "default" &&
        progress.templateSet.getD "" != env.templateSet) = false)
    (hc : progress.status = "completed") :
    runModel env = ⟨EXIT_SUCCESS, [], 0⟩ := by
  simp [runModel, hex, hp, hg, hgate, hc]

/-- Witness for C7 at a concrete input: default-set resume of a completed
project pinned to `alpha`. -/
theorem run_completed_resume_noop_witness :
    runModel c7ResumeEnv = ⟨EXIT_SUCCESS, [], 0⟩ :=
  run_completed_resume_noop c7ResumeEnv ⟨"prd-1", [taskA]⟩
    { baseProgress with templateSet := some "alpha", status := "completed" }
    rfl rfl rfl (by decide) rfl

/-- Counterexample to C7 as stated: a resume request naming a different,
non-default template set against a `completed` project returns
INVALID_ARGS, not SUCCESS — the consistency gate runs first. -/
theorem run_completed_resume_counterexample :
    (c7MismatchEnv.progress0.map Progress.status) = some "completed" ∧
    runModel c7MismatchEnv = ⟨EXIT_INVALID_ARGS, [], 0⟩ ∧
    EXIT_INVALID_ARGS ≠ EXIT_SUCCESS := by
  exact ⟨rfl, rfl, by decide⟩

/-- Claim C4: a nonzero exit code sets the transport error, yet the
structured output captured from `result` events is still returned; the
Execution Engine's outcome never depends on the transport error once a
structured output is present, and (absent a context-compaction signal) is
exactly the structured result's own ladder. -/
theorem callClaude_nonzero_prefers_structured
    (events : List Json) (stdout : String) (code : Nat) (hc : code ≠ 0) :
    (callClaudeClose events stdout code).errorSet = true ∧
    (callClaudeClose events stdout code).structuredOutput =
      (events.foldl processEvent ⟨none, none⟩).structuredOutput ∧
    (∀ res : CallResult, res.structuredOutput.isSome →
      executeTaskDecision res = executeTaskDecision { res with errorSet := false }) ∧
    (∀ u : Json, ∀ res : CallResult, res.contextManagement = none →
      res.structuredOutput = some u →
      executeTaskDecision res = taskResultDecision u) := by
  refine ⟨by simp [callClaudeClose]; simpa using hc, rfl, ?_, ?_⟩
  · intro res hso
    rcases res with ⟨out, err, cm, so⟩
    cases so with
    | none => simp at hso
    | some u => cases cm <;> simp [executeTaskDecision]
  · intro u res hcm hso
    rcases res with ⟨out, err, cm, so⟩
    simp only at hcm hso
    subst hcm; subst hso
    simp [executeTaskDecision]

/-- Witness for C4 at a concrete input: one `result` event carrying a
structured output, exit code 1. -/
theorem callClaude_nonzero_prefers_structured_witness :
    (callClaudeClose [c4ResultEvent] "out" 1).errorSet = true ∧
    (callClaudeClose [c4ResultEvent] "out" 1).structuredOutput =
      ([c4ResultEvent].foldl processEvent ⟨none, none⟩).structuredOutput ∧
    (∀ res : CallResult, res.structuredOutput.isSome →
      executeTaskDecision res = executeTaskDecision { res with errorSet := false }) ∧
    (∀ u : Json, ∀ res : CallResult, res.contextManagement = none →
      res.structuredOutput = some u →
      executeTaskDecision res = taskResultDecision u) :=
  callClaude_nonzero_prefers_structured [c4ResultEvent] "out" 1 (by decide)

/-- Claim C10, amended: a structured result with no `securityCheck` field
gets the default `\x7b passed: true, issues: [] \x7d`, so the security gate
passes and a truthy `passes` still succeeds with exit SUCCESS.  The
security-failure outcome is not limited to an explicit `passed: false`:
any truthy `securityCheck` whose `passed` is falsy — including absent —
triggers it (see the counterexample). -/
theorem security_check_defaults_when_absent
    (u : Json) (h : u.getProp "securityCheck" = none) :
    effectiveSecurityCheck u = defaultSecurityCheck ∧
    jsTruthy ((effectiveSecurityCheck u).getProp "passed") = true ∧
    (jsTruthy (u.getProp "passes") = true →
      taskResultDecision u = ⟨true, some u, EXIT_SUCCESS⟩) := by
  have he : effectiveSecurityCheck u = defaultSecurityCheck := by
    simp [effectiveSecurityCheck, h]
  refine ⟨he, by simp [he, defaultSecurityCheck, Json.getProp, jsTruthy, jsTruthyV], ?_⟩
  intro hp
  unfold taskResultDecision
  rw [he]
  have hd : jsTruthy (defaultSecurityCheck.getProp "passed") = true := rfl
  simp [hd, hp]

/-- Witness for C10 at a concrete input: `passes: true`, no
`securityCheck`. -/
theorem security_check_defaults_when_absent_witness :
    effectiveSecurityCheck c10NoSecurity = defaultSecurityCheck ∧
    jsTruthy ((effectiveSecurityCheck c10NoSecurity).getProp "passed") = true ∧
    (jsTruthy (c10NoSecurity.getProp "passes") = true →
      taskResultDecision c10NoSecurity = ⟨true, some c10NoSecurity, EXIT_SUCCESS⟩) :=
  security_check_defaults_when_absent c10NoSecurity rfl

/-- Counterexample to C10 as stated: a truthy `securityCheck` object with
no `passed` field at all (so `passed` is never explicitly `false`) still
produces the security-failure outcome — success false, exit TASK_FAILED —
even though `passes` is true. -/
theorem security_check_absent_passed_counterexample :
    (Json.obj []).getProp "passed" = none ∧
    jsTruthyV (Json.obj []) = true ∧
    jsTruthy (c10EmptySecurity.getProp "passes") = true ∧
    taskResultDecision c10EmptySecurity =
      ⟨false, some c10EmptySecurity, EXIT_TASK_FAILED⟩ := by
  exact ⟨rfl, rfl, rfl, rfl⟩

/-- Claim C5, amended: in the streaming case (detected by more than one
line and a literal `\x7b"type":` first-line prefix, not by parsing the first
line) the assistant texts are collected in line order and only the last
one becomes the candidate; a non-stream input is its own candidate.  For
the stream of two assistant messages where only the second text is valid
JSON, extraction yields the second's parsed object. -/
theorem extractJson_stream_last_assistant (text : String) :
    (isStreamJson text = true →
      ∀ t, (collectAssistantTexts (splitNl (jsTrim text))).getLast? = some t →
        extractJson text = extractFromText t) ∧
    (isStreamJson text = false → extractJson text = extractFromText text) ∧
    collectAssistantTexts (splitNl (jsTrim c5StreamInput)) =
      ["not json", "\x7b\"b\":2\x7d"] ∧
    extractJson c5StreamInput = some (Json.obj [("b", Json.num "2")]) := by
  refine ⟨?_, ?_, rfl, rfl⟩
  · intro hs t ht
    simp [extractJson, hs, ht]
  · intro hs
    simp [extractJson, hs]

/-- Witness for C5 at a concrete input: the two-assistant-message stream. -/
theorem extractJson_stream_last_assistant_witness :
    extractJson c5StreamInput = extractFromText "\x7b\"b\":2\x7d" :=
  (extractJson_stream_last_assistant c5StreamInput).1 (by rfl) "\x7b\"b\":2\x7d" (by rfl)

/-- Counterexample to C5 as stated: an input whose first line parses as
JSON (so the claim's condition holds) but lacks the literal `\x7b"type":`
prefix is not treated as a stream by the source — the claimed behaviour
(spec model) extracts the assistant's object while the source yields a
ParseError. -/
theorem extractJson_stream_detection_counterexample :
    isStreamJsonSpecC5 c5DetectInput = true ∧
    isStreamJson c5DetectInput = false ∧
    extractJson c5DetectInput = none ∧
    extractJsonSpecC5 c5DetectInput = some (Json.obj [("b", Json.num "2")]) := by
  exact ⟨rfl, rfl, rfl, rfl⟩

/-- The brace framing regex captures the span from the first opening
brace to the last closing brace. -/
theorem braceSpan_first_to_last (pre mid post : List Char)
    (hpre : '{' ∉ pre) (hpost : '}' ∉ post) :
    braceSpan (pre ++ ('{' :: (mid ++ ('}' :: post)))) =
      some ('{' :: (mid ++ ['}'])) := by
  have h1 : pre.findIdx? (fun c => c = '{') = none := by
    rw [List.findIdx?_eq_none_iff]
    intro x hx
    simp only [decide_eq_false_iff_not]
    exact fun hxx => hpre (hxx ▸ hx)
  have hfind1 : (pre ++ ('{' :: (mid ++ ('}' :: post)))).findIdx?
      (fun c => c = '{') = some pre.length := by
    rw [List.findIdx?_append, h1]
    simp [List.findIdx?_cons]
  have hrev : (pre ++ ('{' :: (mid ++ ('}' :: post)))).reverse =
      post.reverse ++ ('}' :: (mid.reverse ++ ('{' :: pre.reverse))) := by
    simp
  have h2 : post.reverse.findIdx? (fun c => c = '}') = none := by
    rw [List.findIdx?_eq_none_iff]
    intro x hx
    simp only [decide_eq_false_iff_not]
    exact fun hxx => hpost (hxx ▸ (List.mem_reverse.mp hx))
  have hfind2 : (pre ++ ('{' :: (mid ++ ('}' :: post)))).reverse.findIdx?
      (fun c => c = '}') = some post.length := by
    rw [hrev, List.findIdx?_append, h2]
    simp [List.findIdx?_cons]
  have hlen : (pre ++ ('{' :: (mid ++ ('}' :: post)))).length =
      pre.length + mid.length + post.length + 2 := by
    simp
    omega
  have hj : (pre ++ ('{' :: (mid ++ ('}' :: post)))).length - 1 - post.length =
      pre.length + mid.length + 1 := by
    rw [hlen]; omega
  have harith : pre.length + mid.length + 1 - pre.length + 1 = mid.length + 2 := by
    omega
  have htake : List.take (mid.length + 2) ('{' :: (mid ++ ('}' :: post))) =
      '{' :: (mid ++ ['}']) := by
    rw [show mid.length + 2 = (mid.length + 1) + 1 from rfl,
      List.take_succ_cons, List.take_append]
    simp
  simp only [braceSpan, hfind1, hfind2, hj]
  rw [if_pos (by omega)]
  rw [harith, List.drop_left, htake]

/-- Claim C6, amended: result extraction strips the first fenced block
when one is present, narrows the candidate to the span from the first
opening brace to the last closing brace (not to the first balanced
object), and parses the trim; a parse failure at this step is the
ParseError outcome, which the Execution Engine maps to SCHEMA_INVALID —
distinct from the transport-error code CLAUDE_ERROR; extraction of the
fenced `json`-tagged example yields its object. -/
theorem extractJson_fence_and_brace_span (pre mid post : List Char)
    (hpre : '{' ∉ pre) (hpost : '}' ∉ post) :
    braceSpan (pre ++ ('{' :: (mid ++ ('}' :: post)))) =
      some ('{' :: (mid ++ ['}'])) ∧
    (∀ content : String, ∀ cap : List Char,
      fenceCapture content.toList = some cap →
      extractFromText content =
        jsonParse (jsTrim (match braceSpan cap with
          | some sp => String.mk sp
          | none => String.mk cap))) ∧
    extractJson c6FenceInput = some (Json.obj [("a", Json.num "1")]) ∧
    (∀ out : String, extractJson out = none →
      executeTaskDecision ⟨some out, false, none, none⟩ =
        ⟨false, none, EXIT_SCHEMA_INVALID⟩) ∧
    EXIT_SCHEMA_INVALID ≠ EXIT_CLAUDE_ERROR := by
  refine ⟨braceSpan_first_to_last pre mid post hpre hpost, ?_, rfl, ?_, by decide⟩
  · intro content cap hf
    have hlist : (String.mk cap).toList = cap := rfl
    simp only [extractFromText, hf, hlist]
  · intro out ho
    simp [executeTaskDecision, ho]

/-- Witness for C6 at a concrete input: concrete framing lists. -/
theorem extractJson_fence_and_brace_span_witness :
    braceSpan (['x'] ++ ('{' :: (['a'] ++ ('}' :: ['y'])))) =
      some ('{' :: (['a'] ++ ['}'])) ∧
    (∀ content : String, ∀ cap : List Char,
      fenceCapture content.toList = some cap →
      extractFromText content =
        jsonParse (jsTrim (match braceSpan cap with
          | some sp => String.mk sp
          | none => String.mk cap))) ∧
    extractJson c6FenceInput = some (Json.obj [("a", Json.num "1")]) ∧
    (∀ out : String, extractJson out = none →
      executeTaskDecision ⟨some out, false, none, none⟩ =
        ⟨false, none, EXIT_SCHEMA_INVALID⟩) ∧
    EXIT_SCHEMA_INVALID ≠ EXIT_CLAUDE_ERROR :=
  extractJson_fence_and_brace_span ['x'] ['a'] ['y'] (by decide) (by decide)

/-- Counterexample to C6 as stated: a candidate holding a complete object
followed by trailing text with a later closing brace.  Locating the first
top-level object (the claim's wording, spec model) parses it; the source
spans to the last closing brace and fails with a ParseError. -/
theorem extractJson_first_object_counterexample :
    isStreamJson c6SpanInput = false ∧
    extractJson c6SpanInput = none ∧
    extractFromTextSpecC6 c6SpanInput = some (Json.obj [("a", Json.num "1")]) := by
  exact ⟨rfl, rfl, rfl⟩

/-- The step-1 fold of `validateSetConfig` produces exactly the
missing-key messages of the keys whose lookup is `undefined`. -/
theorem foldl_missing_keys (doc : Json) (keys : List String) (acc : List String) :
    keys.foldl (fun acc key =>
      match doc.getProp key with
      | none => acc ++ [missingKeyMsg key]
      | some _ => acc) acc =
    acc ++ (keys.filter (fun k => (doc.getProp k).isNone)).map missingKeyMsg := by
  induction keys generalizing acc with
  | nil => simp
  | cons k ks ih =>
    cases h : doc.getProp k with
    | none => simp [h, ih]
    | some v => simp [h, ih]

/-- Claim C8: a set-configuration document with no top-level `task` key is
invalid, the messages name `task` among the missing required keys, every
produced message is a missing-required-key message (the structural failure
short-circuits the phase-array and tool-specific validators), and the
load-time error raised for an invalid document embeds the
expected-structure text. -/
theorem validateSetConfig_missing_task (doc : Json)
    (h : doc.getProp "task" = none) :
    (validateSetConfig doc).1 = false ∧
    missingKeyMsg "task" ∈ (validateSetConfig doc).2 ∧
    (∀ m ∈ (validateSetConfig doc).2, ∃ k, k ∈ setRequiredKeys ∧
      doc.getProp k = none ∧ m = missingKeyMsg k) ∧
    (∀ path readErr : String, ∀ raw : Json,
      (validateSetConfig (migrateSetConfig raw).1).1 = false →
      ∃ a b : String,
        loadSetConfig path readErr (some raw) =
          Except.error (a ++ expectedSetStructure ++ b)) := by
  have hstep1 : setRequiredKeys.foldl (fun acc key =>
      match doc.getProp key with
      | none => acc ++ [missingKeyMsg key]
      | some _ => acc) [] =
      (setRequiredKeys.filter (fun k => (doc.getProp k).isNone)).map
        missingKeyMsg := by
    simpa using foldl_missing_keys doc setRequiredKeys []
  have htask : "task" ∈ setRequiredKeys.filter
      (fun k => (doc.getProp k).isNone) := by
    simp [setRequiredKeys, h]
  have hne : (setRequiredKeys.filter (fun k => (doc.getProp k).isNone)).map
      missingKeyMsg ≠ [] := by
    intro hempty
    rw [List.map_eq_nil_iff] at hempty
    rw [hempty] at htask
    simp at htask
  have hval : validateSetConfig doc =
      (false, (setRequiredKeys.filter (fun k => (doc.getProp k).isNone)).map
        missingKeyMsg) := by
    unfold validateSetConfig
    rw [hstep1]
    simp [hne]
  refine ⟨by rw [hval], ?_, ?_, ?_⟩
  · rw [hval]
    exact List.mem_map_of_mem missingKeyMsg htask
  · intro m hm
    rw [hval] at hm
    obtain ⟨k, hk, rfl⟩ := List.mem_map.mp hm
    have hkmem := List.mem_of_mem_filter hk
    have hknone := List.of_mem_filter hk
    exact ⟨k, hkmem, by simpa using hknone, rfl⟩
  · intro path readErr raw hv
    refine ⟨"Set config not found or invalid: " ++ path ++ "\nError: " ++
      ("Set config validation failed: " ++ path ++ "\nErrors:\n  - " ++
        String.intercalate "\n  - "
          (validateSetConfig (migrateSetConfig raw).1).2 ++
        "\nExpected structure:\n" ++ expectedSetStructure) ++
      "\nExpected structure:\n",
      "\nCopy examples/.ralph/ to ~/.ralph/", ?_⟩
    simp only [loadSetConfig, hv]
    rfl

/-- Witness for C8 at a concrete input: a document carrying `name`,
`version` and `conversion` but no `task`. -/
theorem validateSetConfig_missing_task_witness :
    (validateSetConfig c8Doc).1 = false ∧
    missingKeyMsg "task" ∈ (validateSetConfig c8Doc).2 ∧
    (∀ m ∈ (validateSetConfig c8Doc).2, ∃ k, k ∈ setRequiredKeys ∧
      c8Doc.getProp k = none ∧ m = missingKeyMsg k) ∧
    (∀ path readErr : String, ∀ raw : Json,
      (validateSetConfig (migrateSetConfig raw).1).1 = false →
      ∃ a b : String,
        loadSetConfig path readErr (some raw) =
          Except.error (a ++ expectedSetStructure ++ b)) :=
  validateSetConfig_missing_task c8Doc rfl

/-- An eligible story's id is not yet completed. -/
theorem storyEligible_id_not_completed {completedIds : List String}
    {t : Subtask} (h : storyEligible completedIds t = true) :
    t.id ∉ completedIds := by
  intro hmem
  have hc : completedIds.contains t.id = true := by
    simpa using hmem
  simp only [storyEligible, hc, if_true] at h
  exact Bool.false_ne_true h

/-- An element found by `findIdx` on an id-match predicate has that id. -/
theorem findIdx_get_id {tid : String} :
    ∀ (us : List Subtask) (t : Subtask),
      us.get? (us.findIdx (fun s => s.id == tid)) = some t → t.id = tid := by
  intro us
  induction us with
  | nil => intro t h; simp at h
  | cons a l ih =>
    intro t h
    by_cases hpa : (a.id == tid) = true
    · rw [List.findIdx_cons] at h
      simp only [hpa, cond_true] at h
      injection h with h
      subst h
      exact eq_of_beq hpa
    · rw [List.findIdx_cons] at h
      simp only [Bool.eq_false_iff.mpr hpa, cond_false] at h
      exact ih t h

/-- Replacing a list element by one with the same id preserves the id
list. -/
theorem map_id_set (u : Subtask) :
    ∀ (us : List Subtask) (i : Nat),
      (∀ t, us.get? i = some t → t.id = u.id) →
      (us.set i u).map Subtask.id = us.map Subtask.id := by
  intro us
  induction us with
  | nil => intro i _; simp
  | cons a l ih =>
    intro i h
    cases i with
    | zero =>
      have := h a rfl
      simp [List.set]
      exact this.symm
    | succ i =>
      simp only [List.set, List.map_cons, List.cons.injEq, true_and]
      exact ih i (fun t ht => h t ht)

/-- Appending a fresh element preserves `Nodup`. -/
theorem nodup_append_fresh {l : List String} {x : String}
    (h : l.Nodup) (hx : x ∉ l) : (l ++ [x]).Nodup := by
  simp [List.nodup_append, h, hx]

/-- The run loop preserves duplicate-freedom of `completedTasks` in its
final state and in every `saveState` snapshot, for any oracle. -/
theorem runLoop_nodup_aux (exec : Nat → Subtask → ExecResult) (now : String) :
    ∀ (fuel iter : Nat) (st : LoopState),
      st.progress.completedTasks.Nodup →
      (runLoop exec now fuel iter st).state.progress.completedTasks.Nodup ∧
      ∀ s ∈ (runLoop exec now fuel iter st).saves,
        s.progress.completedTasks.Nodup := by
  intro fuel
  induction fuel with
  | zero =>
    intro iter st h
    exact ⟨h, by simp [runLoop]⟩
  | succ fuel ih =>
    intro iter st h
    cases hfind : findNextTask st.prd.userStories st.progress.completedTasks with
    | none =>
      by_cases hd : allStoriesDone st.prd.userStories st.progress.completedTasks <;>
        simp [runLoop, hfind, hd, h]
    | some nextTask =>
      have hnotin : nextTask.id ∉ st.progress.completedTasks :=
        storyEligible_id_not_completed (List.find?_some hfind)
      by_cases hs : (exec iter nextTask).success = true
      · have h2 : (st.progress.completedTasks ++ [nextTask.id]).Nodup :=
          nodup_append_fresh h hnotin
        simp only [runLoop, hfind, hs, if_true]
        refine ⟨(ih (iter + 1) _ h2).1, ?_⟩
        intro s hsmem
        simp only [List.mem_cons] at hsmem
        rcases hsmem with rfl | rfl | hrest
        · exact h
        · exact h2
        · exact (ih (iter + 1) _ h2).2 s hrest
      · simp [runLoop, hfind, hs, h]

/-- When every oracle result keeps the executed story's id, the run loop
preserves the completed-ids invariant (subset of current story ids, no
duplicates) in its final state and in every snapshot. -/
theorem runLoop_inv_aux (exec : Nat → Subtask → ExecResult) (now : String)
    (hexec : execPreservesIds exec) :
    ∀ (fuel iter : Nat) (st : LoopState), completedInv st →
      completedInv (runLoop exec now fuel iter st).state ∧
      ∀ s ∈ (runLoop exec now fuel iter st).saves, completedInv s := by
  intro fuel
  induction fuel with
  | zero =>
    intro iter st h
    exact ⟨h, by simp [runLoop]⟩
  | succ fuel ih =>
    intro iter st h
    cases hfind : findNextTask st.prd.userStories st.progress.completedTasks with
    | none =>
      by_cases hd : allStoriesDone st.prd.userStories st.progress.completedTasks
      · simp only [runLoop, hfind, hd, if_true, List.mem_singleton, forall_eq]
        exact ⟨h, h⟩
      · simp only [runLoop, hfind, hd, Bool.false_eq_true, if_false,
          List.mem_singleton, forall_eq]
        exact ⟨h, h⟩
    | some nextTask =>
      have helig := List.find?_some hfind
      have hmem : nextTask ∈ st.prd.userStories := List.mem_of_find?_eq_some hfind
      have hnotin : nextTask.id ∉ st.progress.completedTasks :=
        storyEligible_id_not_completed helig
      have hids : (match (exec iter nextTask).updatedTask with
          | some u => st.prd.userStories.set
              (st.prd.userStories.findIdx (fun s : Subtask => s.id == nextTask.id)) u
          | none => st.prd.userStories).map Subtask.id =
          st.prd.userStories.map Subtask.id := by
        cases hu : (exec iter nextTask).updatedTask with
        | none => rfl
        | some u =>
          apply map_id_set
          intro t ht
          have h1 : t.id = nextTask.id := findIdx_get_id st.prd.userStories t ht
          have h2 : u.id = nextTask.id := hexec iter nextTask u hu
          rw [h1, h2]
      have hsub2 : ∀ x ∈ st.progress.completedTasks ++ [nextTask.id],
          x ∈ st.prd.userStories.map Subtask.id := by
        intro x hx
        rcases List.mem_append.mp hx with hx1 | hx1
        · exact h.1 x hx1
        · rw [List.mem_singleton] at hx1
          subst hx1
          exact List.mem_map_of_mem Subtask.id hmem
      by_cases hs : (exec iter nextTask).success = true
      · have hinv2 : (∀ x ∈ st.progress.completedTasks ++ [nextTask.id],
            x ∈ (match (exec iter nextTask).updatedTask with
              | some u => st.prd.userStories.set
                  (st.prd.userStories.findIdx (fun s : Subtask => s.id == nextTask.id)) u
              | none => st.prd.userStories).map Subtask.id) ∧
            (st.progress.completedTasks ++ [nextTask.id]).Nodup := by
          rw [hids]
          exact ⟨hsub2, nodup_append_fresh h.2 hnotin⟩
        have hinv2c : completedInv
            (⟨{ st.prd with userStories :=
                (match (exec iter nextTask).updatedTask with
                  | some u => st.prd.userStories.set
                      (st.prd.userStories.findIdx
                        (fun s : Subtask => s.id == nextTask.id)) u
                  | none => st.prd.userStories) },
              { st.progress with
                currentTask := none
                completedTasks :=
                  st.progress.completedTasks ++ [nextTask.id] }⟩ :
              LoopState) := hinv2
        simp only [runLoop, hfind, hs, if_true]
        refine ⟨(ih (iter + 1) _ hinv2c).1, ?_⟩
        intro s hsmem
        simp only [List.mem_cons] at hsmem
        rcases hsmem with rfl | rfl | hrest
        · exact h
        · exact hinv2
        · exact (ih (iter + 1) _ hinv2c).2 s hrest
      · have hinv2 : (∀ x ∈ st.progress.completedTasks,
            x ∈ (match (exec iter nextTask).updatedTask with
              | some u => st.prd.userStories.set
                  (st.prd.userStories.findIdx (fun s : Subtask => s.id == nextTask.id)) u
              | none => st.prd.userStories).map Subtask.id) ∧
            st.progress.completedTasks.Nodup := by
          rw [hids]
          exact h
        simp only [runLoop, hfind, hs, if_false, Bool.false_eq_true]
        refine ⟨hinv2, ?_⟩
        intro s hsmem
        simp only [List.mem_cons, List.mem_singleton] at hsmem
        rcases hsmem with rfl | rfl | hfalse
        · exact h
        · exact hinv2
        · exact absurd hfalse (by simp)

/-- Claim C9, amended: starting from a ProgressRecord with empty
`completedTasks` (as `init` creates it), the loop's `completedTasks` —
in the final state and in every persisted snapshot — never contains
duplicates, for any oracle; and it stays a subset of the work item's
story ids provided every oracle result keeps the executed story's id.
(An oracle that hands back an updated task under a different id breaks
the subset half: see the counterexample.) -/
theorem runLoop_completedTasks_invariant
    (exec : Nat → Subtask → ExecResult) (now : String)
    (fuel iter : Nat) (st : LoopState)
    (hstart : st.progress.completedTasks = []) :
    ((runLoop exec now fuel iter st).state.progress.completedTasks.Nodup ∧
      ∀ s ∈ (runLoop exec now fuel iter st).saves,
        s.progress.completedTasks.Nodup) ∧
    (execPreservesIds exec →
      completedInv (runLoop exec now fuel iter st).state ∧
      ∀ s ∈ (runLoop exec now fuel iter st).saves, completedInv s) := by
  have hnodup : st.progress.completedTasks.Nodup := by
    rw [hstart]; exact List.nodup_nil
  refine ⟨runLoop_nodup_aux exec now fuel iter st hnodup, fun hexec => ?_⟩
  have hinv : completedInv st := by
    refine ⟨?_, hnodup⟩
    intro i hi
    rw [hstart] at hi
    cases hi
  exact runLoop_inv_aux exec now hexec fuel iter st hinv

/-- Witness for C9 at a concrete input: the single-story state with empty
completed list.  Also records that `init` creates `completedTasks` empty. -/
theorem runLoop_completedTasks_invariant_witness :
    (initProgress ⟨"prd-1", [taskA]⟩ "t0" "default" none).completedTasks = [] ∧
    (((runLoop idleExec "t1" 1 0 c9State).state.progress.completedTasks.Nodup ∧
      ∀ s ∈ (runLoop idleExec "t1" 1 0 c9State).saves,
        s.progress.completedTasks.Nodup) ∧
    (execPreservesIds idleExec →
      completedInv (runLoop idleExec "t1" 1 0 c9State).state ∧
      ∀ s ∈ (runLoop idleExec "t1" 1 0 c9State).saves, completedInv s)) :=
  ⟨rfl, runLoop_completedTasks_invariant idleExec "t1" 1 0 c9State rfl⟩

/-- Counterexample to C9 as stated: an execution whose structured result
renames the story (id `X` in place of `A`) is written back verbatim, after
which the persisted completed id `A` is no longer among the work item's
story ids — the subset invariant fails on a reachable state. -/
theorem runLoop_subset_counterexample :
    c9State.progress.completedTasks = [] ∧
    (runLoop renameExec "t1" 3 0 c9State).state.progress.completedTasks = ["A"] ∧
    (runLoop renameExec "t1" 3 0 c9State).state.prd.userStories.map Subtask.id =
      ["X"] ∧
    "A" ∈ (runLoop renameExec "t1" 3 0 c9State).state.progress.completedTasks ∧
    "A" ∉ (runLoop renameExec "t1" 3 0 c9State).state.prd.userStories.map
      Subtask.id := by
  exact ⟨rfl, by decide, by decide, by decide, by decide⟩
